import Mathlib

set_option maxRecDepth 8192

/-!
Shallow embedding of `internal/verify/validate.go` (AWS provider field
validators), together with the Go standard-library and SDK helpers the file
calls (`strconv.ParseInt`, `time.ParseDuration`, `net.ParseCIDR`, `net.ParseIP`,
`arn.Parse`).  Go's dynamically typed `interface` values are modelled by
`GoValue`; a run that panics (an unchecked type assertion on a value of the
wrong dynamic type) is modelled by `GoResult.panics`, while a normal return of
`(warnings, errors)` is `GoResult.ok`.  Error values are modelled as their
formatted message strings, built exactly as the `fmt.Errorf` calls build them.
-/

/-- A dynamically typed Go value (an `interface` / `any` argument).  Only the
variants that can reach these validators matter; `float` is `float64`, modelled
as a rational number (none of the validators in scope performs float
arithmetic, only an ordering comparison on the received value). -/
inductive GoValue where
  | str (s : String)
  | float (x : Rat)
  | int (n : Int)
  | boolean (b : Bool)
deriving DecidableEq

/-- Outcome of running a Go function that may panic: either a panic with a
message, or a normal return value. -/
inductive GoResult (α : Type) where
  | panics (msg : String)
  | ok (val : α)
deriving DecidableEq

/-- The legacy calling convention returns `(ws []string, errors []error)`;
errors are modelled by their message strings. -/
abbrev WsErrs := List String × List String

/-- A validator of the legacy `schema.SchemaValidateFunc` convention. -/
abbrev SchemaValidateFunc := GoValue → String → GoResult WsErrs

/-- Go's unchecked type assertion `v.(string)`: panics when the dynamic type
is not `string`. -/
def typeAssertString : GoValue → GoResult String
  | .str s => .ok s
  | _ => .panics "interface conversion: interface is not string"

/-- Sequencing a possibly panicking computation. -/
def GoResult.bind : GoResult α → (α → GoResult β) → GoResult β
  | .panics m, _ => .panics m
  | .ok a, f => f a

/-- Warnings component of a returned result (a panic returns nothing). -/
def warningsOf : GoResult WsErrs → List String
  | .panics _ => []
  | .ok (ws, _) => ws

/-- Errors component of a returned result (a panic returns nothing). -/
def errorsOf : GoResult WsErrs → List String
  | .panics _ => []
  | .ok (_, es) => es

/-- Go `%q` on the strings appearing here (no characters needing escapes). -/
def goQuote (s : String) : String := "\"" ++ s ++ "\""

/-- A single-quote character, used inside one error message. -/
def apos : String := String.singleton (Char.ofNat 39)

/-- Decimal digit test (ASCII). -/
def isDig (c : Char) : Bool := '0' ≤ c && c ≤ '9'

/-- Lowercase ASCII letter test. -/
def isLow (c : Char) : Bool := 'a' ≤ c && c ≤ 'z'

/-- Uppercase ASCII letter test. -/
def isUpp (c : Char) : Bool := 'A' ≤ c && c ≤ 'Z'

/-- Value of a list of decimal digits, most significant first. -/
def digitsVal (l : List Char) : Nat :=
  l.foldl (fun n c => n * 10 + (c.toNat - 48)) 0

/-- Does one list start with another? -/
def listStartsWith [BEq α] : List α → List α → Bool
  | _, [] => true
  | [], _ :: _ => false
  | a :: as, b :: bs => a == b && listStartsWith as bs

/-- Go `strings.HasSuffix` on the (ASCII) strings used here. -/
def strEndsWith (s suffix : String) : Bool :=
  listStartsWith s.toList.reverse suffix.toList.reverse

/-- Split a list at the first occurrence of `c`, when there is one. -/
def splitFirst [BEq α] (c : α) : List α → Option (List α × List α)
  | [] => none
  | a :: as =>
    if a == c then some ([], as)
    else match splitFirst c as with
      | none => none
      | some (l, r) => some (a :: l, r)

/-- Go `strings.SplitN(s, sep, n)` for a single-character separator and
`n ≥ 1`: at most `n` pieces, the last piece holding the unsplit remainder. -/
def splitNChar (c : Char) : Nat → List Char → List (List Char)
  | 0, s => [s]
  | 1, s => [s]
  | n + 2, s =>
    match splitFirst c s with
    | none => [s]
    | some (l, r) => l :: splitNChar c (n + 1) r

/-- Split a list at every occurrence of `c` (like Go `strings.Split`). -/
def splitAll (c : Char) (s : List Char) : List (List Char) :=
  splitNChar c (s.length + 1) s

/-- The regular expression `^aws(-[a-z]+)*$` (`partitionRegexp`): the literal
`aws` followed by zero or more groups of a dash and one or more lowercase
letters. -/
def partitionRegexpMatch (s : String) : Bool :=
  match splitAll '-' s.toList with
  | [] => false
  | p0 :: rest =>
    p0 == "aws".toList && rest.all (fun p => !p.isEmpty && p.all isLow)

/-- The regular expression `^[a-z]\x7b2\x7d(-[a-z]+)+-\d$` (`regionRegexp`):
two lowercase letters, one or more dash-separated lowercase groups, and a
final dash and single digit. -/
def regionRegexpMatch (s : String) : Bool :=
  match splitAll '-' s.toList with
  | p0 :: p1 :: rest =>
    p0.length == 2 && p0.all isLow &&
    !rest.isEmpty &&
    (p1 :: rest.dropLast).all (fun p => !p.isEmpty && p.all isLow) &&
    (match rest.getLast? with
     | some [d] => isDig d
     | _ => false)
  | _ => false

/-- The regular expression `^(aws|aws-managed|third-party|\d\x7b12\x7d)$`
(`accountIDRegexp`). -/
def accountIDRegexpMatch (s : String) : Bool :=
  s == "aws" || s == "aws-managed" || s == "third-party" ||
    (s.toList.length == 12 && s.toList.all isDig)

/-- Go `strconv.ParseInt(s, 10, 64)`: optional sign, one or more decimal
digits, result within the signed 64-bit range; `none` models a parse error. -/
def ParseInt64 (s : String) : Option Int :=
  let l := s.toList
  let (neg, digits) :=
    match l with
    | '-' :: rest => (true, rest)
    | '+' :: rest => (false, rest)
    | _ => (false, l)
  if digits.isEmpty || !digits.all isDig then none
  else
    let v := digitsVal digits
    if neg then
      if v ≤ 2 ^ 63 then some (-(v : Int)) else none
    else
      if v ≤ 2 ^ 63 - 1 then some (v : Int) else none

/-- `Valid4ByteASN` from `validate.go`: unchecked assertion to `string`, then
`strconv.ParseInt(value, 10, 64)` and a range check `0 ≤ asn ≤ 4294967295`. -/
def Valid4ByteASN (v : GoValue) (k : String) : GoResult WsErrs :=
  (typeAssertString v).bind fun value =>
    match ParseInt64 value with
    | none =>
      .ok ([], [goQuote k ++ " (" ++ goQuote value ++ ") must be a 64-bit integer"])
    | some asn =>
      if asn < 0 || asn > 4294967295 then
        .ok ([], [goQuote k ++ " (" ++ goQuote value ++ ") must be in the range 0 to 4294967295"])
      else
        .ok ([], [])

/-- `ValidAccountID` from `validate.go`: unchecked assertion to `string`, then
the regular expression `^\d\x7b12\x7d$`. -/
def ValidAccountID (v : GoValue) (k : String) : GoResult WsErrs :=
  (typeAssertString v).bind fun value =>
    if value.toList.length == 12 && value.toList.all isDig then
      .ok ([], [])
    else
      .ok ([], [goQuote k ++ " doesn" ++ apos ++ "t look like AWS Account ID (exactly 12 digits): " ++ goQuote value])

/-- `ValidKMSKeyID` from `validate.go`: byte length between 1 and 2048. -/
def ValidKMSKeyID (v : GoValue) (k : String) : GoResult WsErrs :=
  (typeAssertString v).bind fun value =>
    if value.utf8ByteSize < 1 then
      .ok ([], [goQuote k ++ " cannot be shorter than 1 character"])
    else if value.utf8ByteSize > 2048 then
      .ok ([], [goQuote k ++ " cannot be longer than 2048 characters"])
    else
      .ok ([], [])

/-- The regular expression `^lt\-[a-z0-9]+$`. -/
def launchTemplateIDRegexpMatch (s : String) : Bool :=
  listStartsWith s.toList "lt-".toList &&
  (let rest := s.toList.drop 3
   !rest.isEmpty && rest.all (fun c => isLow c || isDig c))

/-- `ValidLaunchTemplateID` from `validate.go`. -/
def ValidLaunchTemplateID (v : GoValue) (k : String) : GoResult WsErrs :=
  (typeAssertString v).bind fun value =>
    if value.utf8ByteSize < 1 then
      .ok ([], [goQuote k ++ " cannot be shorter than 1 character"])
    else if value.utf8ByteSize > 255 then
      .ok ([], [goQuote k ++ " cannot be longer than 255 characters"])
    else if !launchTemplateIDRegexpMatch value then
      .ok ([], [goQuote k ++ " must begin with " ++ apos ++ "lt-" ++ apos ++ " and be comprised of only alphanumeric characters: " ++ value])
    else
      .ok ([], [])

/-- Character class `[0-9a-zA-Z()./_\-]` of the launch-template-name regular
expression. -/
def launchTemplateNameChar (c : Char) : Bool :=
  isDig c || isLow c || isUpp c || c == '(' || c == ')' || c == '.' ||
    c == '/' || c == '_' || c == '-'

/-- `ValidLaunchTemplateName` from `validate.go`: length at least 3; at most
99 when the key has the suffix `"prefix"`, else at most 125; all characters
from `[0-9a-zA-Z()./_\-]`. -/
def ValidLaunchTemplateName (v : GoValue) (k : String) : GoResult WsErrs :=
  (typeAssertString v).bind fun value =>
    if value.utf8ByteSize < 3 then
      .ok ([], [goQuote k ++ " cannot be less than 3 characters"])
    else if strEndsWith k "prefix" && value.utf8ByteSize > 99 then
      .ok ([], [goQuote k ++ " cannot be longer than 99 characters, name is limited to 125"])
    else if !strEndsWith k "prefix" && value.utf8ByteSize > 125 then
      .ok ([], [goQuote k ++ " cannot be longer than 125 characters"])
    else if !(!value.toList.isEmpty && value.toList.all launchTemplateNameChar) then
      .ok ([], [goQuote k ++ " can only alphanumeric characters and ()./_- symbols"])
    else
      .ok ([], [])

/-- `ValidRegionName` from `validate.go`: empty is valid, otherwise
`regionRegexp` must match. -/
def ValidRegionName (v : GoValue) (k : String) : GoResult WsErrs :=
  (typeAssertString v).bind fun value =>
    if value == "" then .ok ([], [])
    else if !regionRegexpMatch value then
      .ok ([], [goQuote k ++ " region name is malformed(" ++ goQuote "^[a-z]\x7b2\x7d(-[a-z]+)+-\\d$" ++ "): " ++ goQuote value])
    else
      .ok ([], [])

/-- Unit table of Go `time.ParseDuration` (`unitMap`), in nanoseconds. -/
def durationUnit (u : List Char) : Option Nat :=
  if u == "ns".toList then some 1
  else if u == "us".toList then some 1000
  else if u == "µs".toList then some 1000
  else if u == "μs".toList then some 1000
  else if u == "ms".toList then some 1000000
  else if u == "s".toList then some 1000000000
  else if u == "m".toList then some 60000000000
  else if u == "h".toList then some 3600000000000
  else none

/-- Main loop of Go `time.ParseDuration`: each round reads an integer part,
an optional fraction, and a unit, accumulating nanoseconds with the same
overflow cut-offs as Go (the fractional contribution is computed with exact
rational arithmetic where Go uses `float64`; no input in this development has
a fraction).  `fuel` only bounds the recursion and exceeds the number of
rounds whenever it exceeds the length of `s`. -/
def parseDurationLoop (orig : String) : Nat → List Char → Nat → Except String Nat
  | 0, _, _ => .error ("time: invalid duration " ++ goQuote orig)
  | _, [], d => .ok d
  | fuel + 1, c :: cs, d =>
    if !(c == '.' || isDig c) then .error ("time: invalid duration " ++ goQuote orig)
    else
      let (intDigits, s1) := (c :: cs).span isDig
      let v := digitsVal intDigits
      if v > 2 ^ 63 - 1 then .error ("time: invalid duration " ++ goQuote orig)
      else
        let (fracDigits, s2) : List Char × List Char :=
          match s1 with
          | '.' :: rest => rest.span isDig
          | _ => ([], s1)
        if intDigits.isEmpty && fracDigits.isEmpty then
          .error ("time: invalid duration " ++ goQuote orig)
        else
          let (unitChars, s3) := s2.span (fun u => !(u == '.' || isDig u))
          if unitChars.isEmpty then
            .error ("time: missing unit in duration " ++ goQuote orig)
          else
            match durationUnit unitChars with
            | none =>
              .error ("time: unknown unit " ++ goQuote (String.mk unitChars) ++ " in duration " ++ goQuote orig)
            | some unit =>
              if v > 2 ^ 63 / unit then .error ("time: invalid duration " ++ goQuote orig)
              else
                let v1 := v * unit +
                  (if fracDigits.isEmpty then 0
                   else fracDigits.foldl (fun n ch => n * 10 + (ch.toNat - 48)) 0 * unit / 10 ^ fracDigits.length)
                if v1 > 2 ^ 63 then .error ("time: invalid duration " ++ goQuote orig)
                else if d + v1 > 2 ^ 63 then .error ("time: invalid duration " ++ goQuote orig)
                else parseDurationLoop orig fuel s3 (d + v1)

/-- Go `time.ParseDuration`: optional sign, the special case `"0"`, then the
round loop; a parse error leaves the caller's duration at the zero value. -/
def ParseDuration (s : String) : Except String Int :=
  let l := s.toList
  let (neg, l1) :=
    match l with
    | '-' :: rest => (true, rest)
    | '+' :: rest => (false, rest)
    | _ => (false, l)
  if l1 == "0".toList then .ok 0
  else if l1.isEmpty then .error ("time: invalid duration " ++ goQuote s)
  else
    match parseDurationLoop s (l1.length + 1) l1 0 with
    | .error e => .error e
    | .ok d =>
      if neg then .ok (-(d : Int))
      else if d > 2 ^ 63 - 1 then .error ("time: invalid duration " ++ goQuote s)
      else .ok (d : Int)

/-- `ValidDuration` from `validate.go`: unchecked assertion to `string`, a
parse check and a negativity check written as two consecutive `if`s with no
early return; a failed parse leaves `duration` at the zero value. -/
def ValidDuration (v : GoValue) (k : String) : GoResult WsErrs :=
  (typeAssertString v).bind fun value =>
    let parsed := ParseDuration value
    let duration : Int := match parsed with | .ok d => d | .error _ => 0
    let errs1 : List String :=
      match parsed with
      | .ok _ => []
      | .error e => [goQuote k ++ " cannot be parsed as a duration: " ++ e]
    let errs2 : List String :=
      if duration < 0 then [goQuote k ++ " must be greater than zero"] else []
    .ok ([], errs1 ++ errs2)

/-- Hour field `([0-1][0-9]|2[0-3])` of the window regular expressions. -/
def validHH (h1 h2 : Char) : Bool :=
  (('0' ≤ h1 && h1 ≤ '1') && isDig h2) || (h1 == '2' && ('0' ≤ h2 && h2 ≤ '3'))

/-- Minute field `[0-5][0-9]` of the window regular expressions. -/
def validMI (m1 m2 : Char) : Bool := ('0' ≤ m1 && m1 ≤ '5') && isDig m2

/-- The consolidated regular expression of `ValidateOnceADayWindowFormat`:
`^(hh24:mi-hh24:mi|)$` with the fields above; the empty string matches. -/
def onceADayWindowMatch (s : String) : Bool :=
  match s.toList with
  | [] => true
  | [h1, h2, ':', m1, m2, '-', h3, h4, ':', m3, m4] =>
    validHH h1 h2 && validMI m1 m2 && validHH h3 h4 && validMI m3 m4
  | _ => false

/-- `ValidateOnceADayWindowFormat` from `validate.go`. -/
def ValidateOnceADayWindowFormat (value : String) : Option String :=
  if !onceADayWindowMatch value then
    some ("(" ++ value ++ ") must satisfy the format of " ++ goQuote "hh24:mi-hh24:mi")
  else none

/-- `ValidOnceADayWindowFormat` from `validate.go`. -/
def ValidOnceADayWindowFormat (v : GoValue) (k : String) : GoResult WsErrs :=
  (typeAssertString v).bind fun value =>
    match ValidateOnceADayWindowFormat value with
    | some e => .ok ([], [e])
    | none => .ok ([], [])

/-- ASCII lowering (Go `strings.ToLower`; the window pattern only matches
ASCII, so restricting the case map to ASCII is observationally equal here). -/
def toLowerAscii (s : String) : String :=
  String.mk (s.toList.map fun c => if isUpp c then Char.ofNat (c.toNat + 32) else c)

/-- Day field `(sun|mon|tue|wed|thu|fri|sat)` of the weekly window pattern. -/
def validDay (d1 d2 d3 : Char) : Bool :=
  let d := String.mk [d1, d2, d3]
  d == "sun" || d == "mon" || d == "tue" || d == "wed" || d == "thu" ||
    d == "fri" || d == "sat"

/-- The consolidated regular expression of `ValidateOnceAWeekWindowFormat`:
`^(ddd:hh24:mi-ddd:hh24:mi|)$`; the empty string matches. -/
def onceAWeekWindowMatch (s : String) : Bool :=
  match s.toList with
  | [] => true
  | [a1, a2, a3, ':', h1, h2, ':', m1, m2, '-', b1, b2, b3, ':', h3, h4, ':', m3, m4] =>
    validDay a1 a2 a3 && validHH h1 h2 && validMI m1 m2 &&
      validDay b1 b2 b3 && validHH h3 h4 && validMI m3 m4
  | _ => false

/-- `ValidateOnceAWeekWindowFormat` from `validate.go`: lowers the value first,
and reports the lowered value in the message. -/
def ValidateOnceAWeekWindowFormat (value : String) : Option String :=
  let val := toLowerAscii value
  if !onceAWeekWindowMatch val then
    some ("(" ++ val ++ ") must satisfy the format of " ++ goQuote "ddd:hh24:mi-ddd:hh24:mi")
  else none

/-- `ValidOnceAWeekWindowFormat` from `validate.go`. -/
def ValidOnceAWeekWindowFormat (v : GoValue) (k : String) : GoResult WsErrs :=
  (typeAssertString v).bind fun value =>
    match ValidateOnceAWeekWindowFormat value with
    | some e => .ok ([], [e])
    | none => .ok ([], [])

/-- Go `%f` rendering (six fractional digits), modelled exactly on rationals
with rounding half away from zero; no theorem below inspects this text. -/
def goFloatFmt (q : Rat) : String :=
  let sign := if q < 0 then "-" else ""
  let n : Nat := (q.num.natAbs * 1000000 * 2 / q.den + 1) / 2
  let ip := n / 1000000
  let fp := n % 1000000
  let fpStr := Nat.repr fp
  sign ++ Nat.repr ip ++ "." ++ String.mk (List.replicate (6 - fpStr.length) '0') ++ fpStr

/-- `ValidTypeStringNullableFloat` from `validate.go`: a checked assertion to
`string` (error, not panic, on mismatch), empty is valid, otherwise the value
must parse as a 64-bit float.  The call to Go `strconv.ParseFloat(value, 64)`
is abstracted by `parseFloatErr` (`some err` models a failed parse); the
theorems below quantify over it. -/
def ValidTypeStringNullableFloat (parseFloatErr : String → Option String)
    (v : GoValue) (k : String) : GoResult WsErrs :=
  match v with
  | .str value =>
    if value == "" then .ok ([], [])
    else
      match parseFloatErr value with
      | some err =>
        .ok ([], [k ++ ": cannot parse " ++ apos ++ value ++ apos ++ " as float: " ++ err])
      | none => .ok ([], [])
  | _ => .ok ([], ["expected type of " ++ k ++ " to be string"])

/-- `FloatGreaterThan` from `validate.go`: a checked assertion to `float64`
(error, not panic, on mismatch), then a strict threshold comparison. -/
def FloatGreaterThan (threshold : Rat) : SchemaValidateFunc :=
  fun i k =>
    match i with
    | .float v =>
      if v ≤ threshold then
        .ok ([], ["expected " ++ k ++ " to be greater than (" ++ goFloatFmt threshold ++ "), got " ++ goFloatFmt v])
      else .ok ([], [])
    | _ => .ok ([], ["expected type of " ++ k ++ " to be float"])

/-- `ValidateUTCTimestamp` from `validate.go`.  The call to Go
`time.Parse(time.RFC3339, value)` is abstracted by `parseRFC3339Err`
(`some err` models a failed parse); the theorems below quantify over it. -/
def ValidateUTCTimestamp (parseRFC3339Err : String → Option String) (value : String) : Option String :=
  match parseRFC3339Err value with
  | some err =>
    some ("must be in RFC3339 time format " ++ goQuote "2006-01-02T15:04:05Z07:00" ++ ". Example: " ++ err)
  | none => none

/-- `ValidUTCTimestamp` from `validate.go`: unchecked assertion to `string`,
then `ValidateUTCTimestamp`. -/
def ValidUTCTimestamp (parseRFC3339Err : String → Option String)
    (v : GoValue) (k : String) : GoResult WsErrs :=
  (typeAssertString v).bind fun value =>
    match ValidateUTCTimestamp parseRFC3339Err value with
    | some e => .ok ([], [e])
    | none => .ok ([], [])

/-- `ValidIAMPolicyJSON` from `validate.go`: unchecked assertion to `string`;
the value must be non-empty, start with a left brace, and normalize as JSON.
The call to `structure.NormalizeJsonString` (external SDK) is abstracted by
`normalizeJSONErr`; the theorems below quantify over it. -/
def ValidIAMPolicyJSON (normalizeJSONErr : String → Option String)
    (v : GoValue) (k : String) : GoResult WsErrs :=
  (typeAssertString v).bind fun value =>
    if value.utf8ByteSize < 1 then
      .ok ([], [goQuote k ++ " contains an invalid JSON policy"])
    else if value.front != '{' then
      .ok ([], [goQuote k ++ " contains an invalid JSON policy"])
    else
      match normalizeJSONErr value with
      | some err => .ok ([], [goQuote k ++ " contains an invalid JSON: " ++ err])
      | none => .ok ([], [])

/-- `ValidStringIsJSONOrYAML` from `validate.go`.  The helpers
`looksLikeJSONString`, `structure.NormalizeJsonString` and `checkYAMLString`
live outside `validate.go` and are abstracted as parameters; the theorems
below quantify over them.  `looksLikeJSONString` receives the raw interface
value and type-asserts it, hence the unchecked assertion up front. -/
def ValidStringIsJSONOrYAML (looksLikeJSON : String → Bool)
    (normalizeJSONErr checkYAMLErr : String → Option String)
    (v : GoValue) (k : String) : GoResult WsErrs :=
  (typeAssertString v).bind fun value =>
    if looksLikeJSON value then
      match normalizeJSONErr value with
      | some err => .ok ([], [goQuote k ++ " contains an invalid JSON: " ++ err])
      | none => .ok ([], [])
    else
      match checkYAMLErr value with
      | some err => .ok ([], [goQuote k ++ " contains an invalid YAML: " ++ err])
      | none => .ok ([], [])

/-- `validation.IsRFC3339Time` from the terraform-plugin-sdk (external
collaborator of `ValidStringDateOrPositiveInt`): checked assertion to
`string`, then an RFC3339 parse abstracted by `rfc3339Err`. -/
def sdkIsRFC3339Time (rfc3339Err : String → Option String)
    (i : GoValue) (k : String) : GoResult WsErrs :=
  match i with
  | .str v =>
    match rfc3339Err v with
    | some err =>
      .ok ([], ["expected " ++ goQuote k ++ " to be a valid RFC3339 date, got " ++ goQuote v ++ ": " ++ err])
    | none => .ok ([], [])
  | _ => .ok ([], ["expected type of " ++ goQuote k ++ " to be string"])

/-- `validation.StringMatch` from the terraform-plugin-sdk (external),
instantiated at the pattern `^\d+$` used by `ValidStringDateOrPositiveInt`:
checked assertion to `string`, then the match. -/
def sdkStringMatchDigits (message : String) (i : GoValue) (k : String) : GoResult WsErrs :=
  match i with
  | .str v =>
    if !v.toList.isEmpty && v.toList.all isDig then .ok ([], [])
    else .ok ([], ["invalid value for " ++ k ++ " (" ++ message ++ ")"])
  | _ => .ok ([], ["expected type of " ++ k ++ " to be string"])

/-- Accumulating loop of `validation.Any` from the terraform-plugin-sdk. -/
def sdkAnyGo : List SchemaValidateFunc → GoValue → String → List String → List String → GoResult WsErrs
  | [], _, _, aw, ae => .ok (aw, ae)
  | f :: rest, i, k, aw, ae =>
    (f i k).bind fun we =>
      if we.1.isEmpty && we.2.isEmpty then .ok ([], [])
      else sdkAnyGo rest i k (aw ++ we.1) (ae ++ we.2)

/-- `validation.Any` from the terraform-plugin-sdk (external): the first
validator returning no warnings and no errors makes the composite return empty
lists; otherwise everything accumulates. -/
def sdkAny (validators : List SchemaValidateFunc) : SchemaValidateFunc :=
  fun i k => sdkAnyGo validators i k [] []

/-- `ValidStringDateOrPositiveInt` from `validate.go`: `validation.Any` of an
RFC3339 check and the digits pattern. -/
def ValidStringDateOrPositiveInt (rfc3339Err : String → Option String) : SchemaValidateFunc :=
  sdkAny [sdkIsRFC3339Time rfc3339Err, sdkStringMatchDigits "must be a positive integer value"]

instance [DecidableEq ε] [DecidableEq α] : DecidableEq (Except ε α) := fun x y =>
  match x, y with
  | .error a, .error b => if h : a = b then .isTrue (by rw [h]) else .isFalse (by simp [h])
  | .error _, .ok _ => .isFalse (by simp)
  | .ok _, .error _ => .isFalse (by simp)
  | .ok a, .ok b => if h : a = b then .isTrue (by rw [h]) else .isFalse (by simp [h])

/-- A parsed Amazon Resource Name, as in `arn.ARN` of aws-sdk-go (the
`service` field is parsed but never checked by the validator). -/
structure ARN where
  partition : String
  service : String
  region : String
  accountID : String
  resource : String
deriving DecidableEq

/-- `arn.Parse` from aws-sdk-go (external): the string must start with
`"arn:"` and split (`strings.SplitN` with separator `:` and limit 6) into
exactly 6 sections; the last section keeps any further colons. -/
def arnParse (value : String) : Except String ARN :=
  if !listStartsWith value.toList "arn:".toList then
    .error "arn: invalid prefix"
  else
    match (splitNChar ':' 6 value.toList).map String.mk with
    | [_, p, s, r, a, res] =>
      .ok { partition := p, service := s, region := r, accountID := a, resource := res }
    | _ => .error "arn: not enough sections"

/-- A secondary ARN check function (`ARNCheckFunc` in `validate.go`). -/
abbrev ARNCheckFunc := GoValue → String → ARN → List String × List String

/-- `ValidARNCheck` from `validate.go`: checked assertion to `string` (error,
not panic, on mismatch); empty is valid; a parse failure returns a single
error immediately; otherwise four independent subfield checks append their
errors in sequence, and then every supplied check function runs, its warnings
and errors appended. -/
def ValidARNCheck (checks : List ARNCheckFunc) : SchemaValidateFunc :=
  fun v k =>
    match v with
    | .str value =>
      if value == "" then .ok ([], [])
      else
        match arnParse value with
        | .error err =>
          .ok ([], [goQuote k ++ " (" ++ value ++ ") is an invalid ARN: " ++ err])
        | .ok parsedARN =>
          let errors : List String := []
          let errors :=
            if parsedARN.partition == "" then
              errors ++ [goQuote k ++ " (" ++ value ++ ") is an invalid ARN: missing partition value"]
            else if !partitionRegexpMatch parsedARN.partition then
              errors ++ [goQuote k ++ " (" ++ value ++ ") is an invalid ARN: invalid partition value (expecting to match regular expression: ^aws(-[a-z]+)*$)"]
            else errors
          let errors :=
            if parsedARN.region != "" && !regionRegexpMatch parsedARN.region then
              errors ++ [goQuote k ++ " (" ++ value ++ ") is an invalid ARN: invalid region value (expecting to match regular expression: ^[a-z]\x7b2\x7d(-[a-z]+)+-\\d$)"]
            else errors
          let errors :=
            if parsedARN.accountID != "" && !accountIDRegexpMatch parsedARN.accountID then
              errors ++ [goQuote k ++ " (" ++ value ++ ") is an invalid ARN: invalid account ID value (expecting to match regular expression: ^(aws|aws-managed|third-party|\\d\x7b12\x7d)$)"]
            else errors
          let errors :=
            if parsedARN.resource == "" then
              errors ++ [goQuote k ++ " (" ++ value ++ ") is an invalid ARN: missing resource value"]
            else errors
          let acc := checks.foldl
            (fun (acc : List String × List String) f =>
              let we := f v k parsedARN
              (acc.1 ++ we.1, acc.2 ++ we.2))
            ([], errors)
          .ok (acc.1, acc.2)
    | _ => .ok ([], ["expected type of " ++ k ++ " to be string"])

/-- `ValidARN` from `validate.go`: `ValidARNCheck` with no extra checks. -/
def ValidARN : SchemaValidateFunc := ValidARNCheck []

/-- The partition-subfield errors of `ValidARNCheck`, in isolation. -/
def arnPartitionErrors (k value : String) (a : ARN) : List String :=
  if a.partition == "" then
    [goQuote k ++ " (" ++ value ++ ") is an invalid ARN: missing partition value"]
  else if !partitionRegexpMatch a.partition then
    [goQuote k ++ " (" ++ value ++ ") is an invalid ARN: invalid partition value (expecting to match regular expression: ^aws(-[a-z]+)*$)"]
  else []

/-- The region-subfield errors of `ValidARNCheck`, in isolation. -/
def arnRegionErrors (k value : String) (a : ARN) : List String :=
  if a.region != "" && !regionRegexpMatch a.region then
    [goQuote k ++ " (" ++ value ++ ") is an invalid ARN: invalid region value (expecting to match regular expression: ^[a-z]\x7b2\x7d(-[a-z]+)+-\\d$)"]
  else []

/-- The account-ID-subfield errors of `ValidARNCheck`, in isolation. -/
def arnAccountIDErrors (k value : String) (a : ARN) : List String :=
  if a.accountID != "" && !accountIDRegexpMatch a.accountID then
    [goQuote k ++ " (" ++ value ++ ") is an invalid ARN: invalid account ID value (expecting to match regular expression: ^(aws|aws-managed|third-party|\\d\x7b12\x7d)$)"]
  else []

/-- The resource-subfield errors of `ValidARNCheck`, in isolation. -/
def arnResourceErrors (k value : String) (a : ARN) : List String :=
  if a.resource == "" then
    [goQuote k ++ " (" ++ value ++ ") is an invalid ARN: missing resource value"]
  else []

/-- Hexadecimal digit value, when the character is one. -/
def hexVal (c : Char) : Option Nat :=
  if isDig c then some (c.toNat - 48)
  else if 'a' ≤ c && c ≤ 'f' then some (c.toNat - 87)
  else if 'A' ≤ c && c ≤ 'F' then some (c.toNat - 55)
  else none

/-- Accumulator of Go `xtoi`: value and count of the leading hex-digit run
(the caller rejects out-of-range values, which subsumes Go's cut-off). -/
def xtoiAux : List Char → Nat → Nat → Nat × Nat
  | [], n, i => (n, i)
  | c :: cs, n, i =>
    match hexVal c with
    | some d => xtoiAux cs (n * 16 + d) (i + 1)
    | none => (n, i)

/-- Go `xtoi` (value, characters consumed). -/
def xtoi (s : List Char) : Nat × Nat := xtoiAux s 0 0

/-- Accumulator of Go `dtoi`. -/
def dtoiAux : List Char → Nat → Nat → Nat × Nat × Bool
  | [], n, i => (n, i, decide (0 < i))
  | c :: cs, n, i =>
    if isDig c then
      let n1 := n * 10 + (c.toNat - 48)
      if n1 ≥ 0xFFFFFF then (0xFFFFFF, i + 1, false)
      else dtoiAux cs n1 (i + 1)
    else (n, i, decide (0 < i))

/-- Go `dtoi`: `(value, count, ok)` of the leading decimal-digit run; not ok
when there is no digit or the value reaches the `0xFFFFFF` cut-off. -/
def dtoi (s : List Char) : Nat × Nat × Bool := dtoiAux s 0 0

/-- The 12-byte header of an IPv4-in-IPv6 address (`v4InV6Prefix` in Go). -/
def v4InV6Header : List Nat := [0, 0, 0, 0, 0, 0, 0, 0, 0, 0, 0xFF, 0xFF]

/-- Field loop of Go `parseIPv4`: each field is a decimal run of value at
most 255 with no leading zero; a dot precedes every field except the first. -/
def parseIPv4Loop : Nat → Bool → List Char → List Nat → Option (List Nat)
  | 0, _, s, acc => if s.isEmpty then some acc else none
  | n + 1, first, s, acc =>
    let s1 : Option (List Char) :=
      if first then some s
      else match s with
        | '.' :: r => some r
        | _ => none
    match s1 with
    | none => none
    | some t =>
      let (v, c, ok) := dtoi t
      if !ok || v > 0xFF then none
      else if c > 1 && t.head? == some '0' then none
      else parseIPv4Loop n false (t.drop c) (acc ++ [v])

/-- Go `parseIPv4`: four dotted fields; like Go's `IPv4` constructor the
result is the 16-byte IPv4-in-IPv6 representation. -/
def parseIPv4Go (s : List Char) : Option (List Nat) :=
  match parseIPv4Loop 4 true s [] with
  | some quad => some (v4InV6Header ++ quad)
  | none => none

/-- Group loop of Go `parseIPv6`.  `acc` holds the bytes read so far and
`ell` the byte position of a `::` when one was seen; the result carries the
unconsumed input (Go leaves its loop with leftover input exactly when all 16
bytes are filled).  `fuel` only bounds the recursion and exceeds the number
of rounds whenever it exceeds the length of `s`. -/
def parseIPv6Loop : Nat → List Char → List Nat → Option Nat → Option (List Nat × Option Nat × List Char)
  | 0, _, _, _ => none
  | fuel + 1, s, acc, ell =>
    if acc.length ≥ 16 then some (acc, ell, s)
    else
      let (n, c) := xtoi s
      if c == 0 || n > 0xFFFF then none
      else if (s.drop c).head? == some '.' then
        if ell == none && acc.length != 12 then none
        else if acc.length + 4 > 16 then none
        else
          match parseIPv4Go s with
          | none => none
          | some ip16 => some (acc ++ ip16.drop 12, ell, [])
      else
        let acc1 := acc ++ [n / 256, n % 256]
        match s.drop c with
        | [] => some (acc1, ell, [])
        | ':' :: s2 =>
          match s2 with
          | [] => none
          | ':' :: s3 =>
            if ell != none then none
            else if s3.isEmpty then some (acc1, some acc1.length, [])
            else parseIPv6Loop fuel s3 acc1 (some acc1.length)
          | _ => parseIPv6Loop fuel s2 acc1 ell
        | _ => none

/-- Final phase of Go `parseIPv6`: no leftover input, and when fewer than 16
bytes were read a `::` must have been seen, whose position receives the
missing zero bytes. -/
def parseIPv6Finish (s : List Char) (ell0 : Option Nat) : Option (List Nat) :=
  match parseIPv6Loop (s.length + 1) s [] ell0 with
  | none => none
  | some (acc, ell, leftover) =>
    if !leftover.isEmpty then none
    else if acc.length < 16 then
      match ell with
      | none => none
      | some e => some (acc.take e ++ List.replicate (16 - acc.length) 0 ++ acc.drop e)
    else if ell != none then none
    else some acc

/-- Go `parseIPv6` (zone identifiers are unsupported, as in modern
`net.ParseIP`: a `%` fails the hex scan). -/
def parseIPv6Go (s : List Char) : Option (List Nat) :=
  match s with
  | ':' :: ':' :: rest =>
    if rest.isEmpty then some (List.replicate 16 0)
    else parseIPv6Finish rest (some 0)
  | _ => parseIPv6Finish s none

/-- Go `net.ParseIP`: the first dot or colon decides the address family. -/
def ParseIP (s : String) : Option (List Nat) :=
  match s.toList.find? (fun c => c == '.' || c == ':') with
  | some '.' => parseIPv4Go s.toList
  | some ':' => parseIPv6Go s.toList
  | _ => none

/-- Go `IP.To4`: a 4-byte address itself, or the tail of an IPv4-in-IPv6
address. -/
def ipTo4 (ip : List Nat) : Option (List Nat) :=
  if ip.length == 4 then some ip
  else if ip.length == 16 && ip.take 12 == v4InV6Header then some (ip.drop 12)
  else none

/-- Go `IP.IsMulticast`. -/
def ipIsMulticast (ip : List Nat) : Bool :=
  match ipTo4 ip with
  | some ip4 => ip4.headD 0 &&& 0xF0 == 0xE0
  | none => ip.length == 16 && ip.headD 0 == 0xFF

/-- One byte of a contiguous mask, given how many of its bits are ones. -/
def maskByte (r : Nat) : Nat := 256 - 2 ^ (8 - min r 8)

/-- Go `net.CIDRMask(ones, bits)` for `bits` a multiple of 8,
`ones ≤ bits`. -/
def CIDRMask (ones bits : Nat) : List Nat :=
  (List.range (bits / 8)).map fun i => maskByte (ones - 8 * i)

/-- Go `IP.Mask`: adapts a 16-byte mask to a 4-byte address and a 4-byte mask
to an IPv4-in-IPv6 address, then masks bytewise (`[]` models Go's `nil` on a
length mismatch). -/
def ipMask (ip mask : List Nat) : List Nat :=
  let mask1 := if mask.length == 16 && ip.length == 4 then mask.drop 12 else mask
  let ip1 := if mask1.length == 4 && ip.length == 16 && ip.take 12 == v4InV6Header then ip.drop 12 else ip
  if ip1.length != mask1.length then []
  else List.zipWith (fun a b => a &&& b) ip1 mask1

/-- Number of leading one bits of a byte of the form `1^k 0^(8-k)`,
`none` otherwise. -/
def byteLeadingOnes (b : Nat) : Option Nat :=
  (List.range 9).find? fun k => b == maskByte k

/-- Go `simpleMaskLength`: total leading ones of a contiguous mask, `none`
(Go: `-1`) otherwise. -/
def simpleMaskLength : List Nat → Option Nat
  | [] => some 0
  | b :: bs =>
    if b == 0xFF then
      match simpleMaskLength bs with
      | some n => some (8 + n)
      | none => none
    else
      match byteLeadingOnes b with
      | none => none
      | some k => if bs.all (· == 0) then some k else none

/-- Lowercase hex digit character. -/
def hexDigitChar (d : Nat) : Char :=
  if d < 10 then Char.ofNat (48 + d) else Char.ofNat (87 + d)

/-- Minimal lowercase hex digits of `n` (with bounded recursion depth; every
value rendered here fits in 16 bits). -/
def hexStrAux : Nat → Nat → List Char
  | 0, _ => []
  | fuel + 1, n =>
    if n == 0 then []
    else hexStrAux fuel (n / 16) ++ [hexDigitChar (n % 16)]

/-- Go `appendHex`: minimal lowercase hex, `"0"` for zero. -/
def hexStr (n : Nat) : String :=
  if n == 0 then "0" else String.mk (hexStrAux 16 n)

/-- Two-digit hex of every byte (Go `IPMask.String`). -/
def bytesHex (bs : List Nat) : String :=
  String.mk (bs.foldr (fun b acc => hexDigitChar (b / 16 % 16) :: hexDigitChar (b % 16) :: acc) [])

/-- Dotted-quad rendering of 4 bytes. -/
def dottedQuad (bs : List Nat) : String :=
  String.intercalate "." (bs.map Nat.repr)

/-- The eight 16-bit groups of a 16-byte address. -/
def ip6Groups : List Nat → List Nat
  | a :: b :: rest => (a * 256 + b) :: ip6Groups rest
  | _ => []

/-- Zero-run search of Go `IP.String`: leftmost longest run of zero groups,
kept only when at least two groups long. -/
def bestZeroRun (gs : List Nat) : Option (Nat × Nat) :=
  let cand := (List.range gs.length).map fun i => (i, ((gs.drop i).takeWhile (· == 0)).length)
  let best := cand.foldl (fun b (p : Nat × Nat) => if p.2 > b.2 then p else b) (0, 0)
  if best.2 ≥ 2 then some best else none

/-- Go `IP.String` on a 16-byte address (RFC 5952: lowercase minimal hex,
`::` at the best zero run). -/
def ip6String (ip : List Nat) : String :=
  let gs := ip6Groups ip
  match bestZeroRun gs with
  | none => String.intercalate ":" (gs.map hexStr)
  | some (i, l) =>
    String.intercalate ":" ((gs.take i).map hexStr) ++ "::" ++
      String.intercalate ":" ((gs.drop (i + l)).map hexStr)

/-- Go `IP.String`. -/
def ipString (ip : List Nat) : String :=
  if ip.isEmpty then "<nil>"
  else
    match ipTo4 ip with
    | some ip4 => dottedQuad ip4
    | none => if ip.length != 16 then "?" ++ bytesHex ip else ip6String ip

/-- Go `networkNumberAndMask`. -/
def networkNumberAndMask (n m : List Nat) : Option (List Nat × List Nat) :=
  let ip := match ipTo4 n with
    | some ip4 => ip4
    | none => n
  if ipTo4 n == none && n.length != 16 then none
  else if m.length == 4 then
    if ip.length != 4 then none else some (ip, m)
  else if m.length == 16 then
    if ip.length == 4 then some (ip, m.drop 12) else some (ip, m)
  else none

/-- Go `IPNet.String`. -/
def ipnetString (ipn : List Nat × List Nat) : String :=
  match networkNumberAndMask ipn.1 ipn.2 with
  | none => "<nil>"
  | some (nn, m) =>
    match simpleMaskLength m with
    | none => ipString nn ++ "/" ++ bytesHex m
    | some l => ipString nn ++ "/" ++ Nat.repr l

/-- Go `net.ParseCIDR`: split at the first slash, parse the address (IPv4
first, IPv6 otherwise), parse the prefix length with no leftover, and return
the unmasked address together with the masked network and its mask. -/
def ParseCIDR (s : String) : Option (List Nat × (List Nat × List Nat)) :=
  match splitFirst '/' s.toList with
  | none => none
  | some (addr, maskStr) =>
    let ipAndLen : Option (List Nat) × Nat :=
      match parseIPv4Go addr with
      | some ip => (some ip, 4)
      | none => (parseIPv6Go addr, 16)
    match ipAndLen.1 with
    | none => none
    | some ip =>
      let (n, i, ok) := dtoi maskStr
      if !ok || i != maskStr.length || n > 8 * ipAndLen.2 then none
      else
        let m := CIDRMask n (8 * ipAndLen.2)
        some (ip, (ipMask ip m, m))

/-- Modelled from the spec: `CIDRBlocksEqual` lives in a sibling file of this
repository that is not under `src/`.  Per the spec the CIDR validators use it
to require that the input string "equals the canonical form byte-for-byte —
i.e., the input must already be the network's canonical CIDR representation",
so the comparison is plain string equality. -/
def CIDRBlocksEqual (cidr1 cidr2 : String) : Bool := cidr1 == cidr2

/-- `ValidateCIDRBlock` from `validate.go`: parse, then require the input to
be the canonical CIDR form of its network. -/
def ValidateCIDRBlock (cidr : String) : Option String :=
  match ParseCIDR cidr with
  | none => some (goQuote cidr ++ " is not a valid CIDR block: invalid CIDR address: " ++ cidr)
  | some (_, ipnet) =>
    if !CIDRBlocksEqual cidr (ipnetString ipnet) then
      some (goQuote cidr ++ " is not a valid CIDR block; did you mean " ++ goQuote (ipnetString ipnet) ++ "?")
    else none

/-- `ValidCIDRNetworkAddress` from `validate.go`. -/
def ValidCIDRNetworkAddress (v : GoValue) (k : String) : GoResult WsErrs :=
  (typeAssertString v).bind fun value =>
    match ValidateCIDRBlock value with
    | some e => .ok ([], [e])
    | none => .ok ([], [])

/-- `ValidateIPv4CIDRBlock` from `validate.go`: parse; the address must have
a 4-byte form; the input must be the canonical CIDR form of its network. -/
def ValidateIPv4CIDRBlock (cidr : String) : Option String :=
  match ParseCIDR cidr with
  | none => some (goQuote cidr ++ " is not a valid CIDR block: invalid CIDR address: " ++ cidr)
  | some (ip, ipnet) =>
    match ipTo4 ip with
    | none => some (goQuote cidr ++ " is not a valid IPv4 CIDR block")
    | some _ =>
      if !CIDRBlocksEqual cidr (ipnetString ipnet) then
        some (goQuote cidr ++ " is not a valid IPv4 CIDR block; did you mean " ++ goQuote (ipnetString ipnet) ++ "?")
      else none

/-- `ValidateIPv6CIDRBlock` from `validate.go`: parse; the address must not
reduce to a 4-byte form; the input must be the canonical CIDR form of its
network. -/
def ValidateIPv6CIDRBlock (cidr : String) : Option String :=
  match ParseCIDR cidr with
  | none => some (goQuote cidr ++ " is not a valid CIDR block: invalid CIDR address: " ++ cidr)
  | some (ip, ipnet) =>
    match ipTo4 ip with
    | some _ => some (goQuote cidr ++ " is not a valid IPv6 CIDR block")
    | none =>
      if !CIDRBlocksEqual cidr (ipnetString ipnet) then
        some (goQuote cidr ++ " is not a valid IPv6 CIDR block; did you mean " ++ goQuote (ipnetString ipnet) ++ "?")
      else none

/-- `ValidIPv4CIDRNetworkAddress` from `validate.go`. -/
def ValidIPv4CIDRNetworkAddress (v : GoValue) (k : String) : GoResult WsErrs :=
  (typeAssertString v).bind fun value =>
    match ValidateIPv4CIDRBlock value with
    | some e => .ok ([], [e])
    | none => .ok ([], [])

/-- `ValidIPv6CIDRNetworkAddress` from `validate.go`. -/
def ValidIPv6CIDRNetworkAddress (v : GoValue) (k : String) : GoResult WsErrs :=
  (typeAssertString v).bind fun value =>
    match ValidateIPv6CIDRBlock value with
    | some e => .ok ([], [e])
    | none => .ok ([], [])

/-- `validateMulticastIPAddress` from `validate.go`. -/
def validateMulticastIPAddress (s : String) : Option String :=
  match ParseIP s with
  | none => some (goQuote s ++ " is not a valid IP address")
  | some ip =>
    if !ipIsMulticast ip then some (goQuote s ++ " is not a valid multicast address")
    else none

/-- `ValidMulticastIPAddress` from `validate.go`. -/
def ValidMulticastIPAddress (v : GoValue) (k : String) : GoResult WsErrs :=
  (typeAssertString v).bind fun value =>
    match validateMulticastIPAddress value with
    | some e => .ok ([], [e])
    | none => .ok ([], [])

/-- A diagnostic of the `diag.Diagnostics` convention, modelled by its
content string. -/
abbrev Diagnostic := String

/-- A `cty.Path`, modelled by the attribute path rendered as a string. -/
abbrev CtyPath := String

/-- A validator of the `schema.SchemaValidateDiagFunc` convention. -/
abbrev SchemaValidateDiagFunc := GoValue → CtyPath → List Diagnostic

/-- `ValidAllDiag` from `validate.go`: run every validator on the same input
and append all the diagnostics each produces, in order. -/
def ValidAllDiag (validators : List SchemaValidateDiagFunc) : SchemaValidateDiagFunc :=
  fun i path =>
    validators.foldl (fun results validator => results ++ validator i path) []

/-- Loop of `ValidAnyDiag`: a validator producing zero diagnostics returns an
empty `diag.Diagnostics` immediately; otherwise its diagnostics accumulate. -/
def validAnyDiagLoop : List SchemaValidateDiagFunc → GoValue → CtyPath → List Diagnostic → List Diagnostic
  | [], _, _, results => results
  | validator :: rest, i, path, results =>
    let diags := validator i path
    if diags.length == 0 then []
    else validAnyDiagLoop rest i path (results ++ diags)

/-- `ValidAnyDiag` from `validate.go`. -/
def ValidAnyDiag (validators : List SchemaValidateDiagFunc) : SchemaValidateDiagFunc :=
  fun i path => validAnyDiagLoop validators i path []

/-- The parse-failure errors of `ValidDuration`, in isolation. -/
def durationParseErrors (k s : String) : List String :=
  match ParseDuration s with
  | .ok _ => []
  | .error e => [goQuote k ++ " cannot be parsed as a duration: " ++ e]

/-- The duration value `ValidDuration` observes: a failed parse leaves the
zero value. -/
def goDurationOf (s : String) : Int :=
  match ParseDuration s with
  | .ok d => d
  | .error _ => 0

/-- The negativity errors of `ValidDuration`, in isolation. -/
def durationNegativityErrors (k s : String) : List String :=
  if goDurationOf s < 0 then [goQuote k ++ " must be greater than zero"] else []

/-!  Theorems.  -/

theorem typeAssert_nonstr (v : GoValue) (hv : ∀ s, v ≠ GoValue.str s) :
    typeAssertString v = .panics "interface conversion: interface is not string" := by
  cases v
  case str s => exact absurd rfl (hv s)
  all_goals rfl

theorem bindAssert_nonstr (v : GoValue) (F : String → GoResult WsErrs)
    (hv : ∀ s, v ≠ GoValue.str s) :
    (typeAssertString v).bind F = .panics "interface conversion: interface is not string" := by
  rw [typeAssert_nonstr v hv]; rfl

theorem strAppendAssoc (a b c : String) : a ++ b ++ c = a ++ (b ++ c) := by
  apply String.ext
  simp [String.data_append, List.append_assoc]

theorem strAppendCongr (x A B C D : String) (h : A ++ B = D) :
    x ++ A ++ (B ++ C) = x ++ D ++ C := by
  rw [← h, ← strAppendAssoc (x ++ A) B C, strAppendAssoc x A B]

theorem arnChecksFoldl (checks : List ARNCheckFunc) (v : GoValue) (k : String) (a : ARN)
    (w0 e0 : List String) :
    checks.foldl
      (fun (acc : List String × List String) f =>
        let we := f v k a
        (acc.1 ++ we.1, acc.2 ++ we.2)) (w0, e0)
    = (w0 ++ (checks.map fun f => (f v k a).1).flatten,
       e0 ++ (checks.map fun f => (f v k a).2).flatten) := by
  induction checks generalizing w0 e0 with
  | nil => simp
  | cons f rest ih => simp [ih, List.append_assoc]

/-- C2: for every string that parses as an ARN, the validator returned by
`ValidARNCheck` runs all four subfield checks unconditionally, appending one
error per failing check (partition, region, account ID, resource, in that
order, each depending only on its own subfield), and afterwards every
supplied secondary check function runs regardless of earlier failures, its
warnings and errors appended. -/
theorem c2_claim (checks : List ARNCheckFunc) (value k : String) (a : ARN)
    (hne : value ≠ "") (hparse : arnParse value = .ok a) :
    ValidARNCheck checks (GoValue.str value) k =
      .ok ((checks.map fun f => (f (GoValue.str value) k a).1).flatten,
           arnPartitionErrors k value a ++ arnRegionErrors k value a ++
             arnAccountIDErrors k value a ++ arnResourceErrors k value a ++
             (checks.map fun f => (f (GoValue.str value) k a).2).flatten) := by
  have hbeq : (value == "") = false := by simp [hne]
  simp only [ValidARNCheck, hbeq, hparse]
  rw [arnChecksFoldl]
  unfold arnPartitionErrors arnRegionErrors arnAccountIDErrors arnResourceErrors
  split_ifs <;> simp_all

/-- C2 witness: an ARN with a malformed region and a malformed account ID at
once yields two errors, not one. -/
theorem c2_witness :
    (errorsOf (ValidARNCheck [] (GoValue.str "arn:aws:s3:BADREGION:badacct:x") "k")).length = 2 := by
  rw [c2_claim [] "arn:aws:s3:BADREGION:badacct:x" "k"
    { partition := "aws", service := "s3", region := "BADREGION", accountID := "badacct", resource := "x" }
    (by decide) (by decide)]
  decide

/-- C3: `ValidDuration` fails on `"-5s"` (negative), fails on `"abc"`
(unparseable), succeeds on `"5s"`, and on every input its error list is the
parse-failure check's errors followed by the independently evaluated
negativity check's errors — the two checks never short-circuit one
another. -/
theorem c3_claim (k s : String) :
    ValidDuration (GoValue.str "-5s") k = .ok ([], [goQuote k ++ " must be greater than zero"]) ∧
    ValidDuration (GoValue.str "abc") k =
      .ok ([], [goQuote k ++ " cannot be parsed as a duration: time: invalid duration " ++ goQuote "abc"]) ∧
    ValidDuration (GoValue.str "5s") k = .ok ([], []) ∧
    ValidDuration (GoValue.str s) k =
      .ok ([], durationParseErrors k s ++ durationNegativityErrors k s) := by
  refine ⟨?_, ?_, ?_, ?_⟩
  · have h : ParseDuration "-5s" = .ok (-5000000000) := by decide
    simp [ValidDuration, typeAssertString, GoResult.bind, h]
  · have h : ParseDuration "abc" = .error ("time: invalid duration " ++ goQuote "abc") := by decide
    simp only [ValidDuration, typeAssertString, GoResult.bind, h]
    rw [strAppendCongr (goQuote k) " cannot be parsed as a duration: "
      "time: invalid duration " (goQuote "abc")
      " cannot be parsed as a duration: time: invalid duration " (by decide)]
    simp
  · have h : ParseDuration "5s" = .ok 5000000000 := by decide
    simp [ValidDuration, typeAssertString, GoResult.bind, h]
  · unfold ValidDuration durationParseErrors durationNegativityErrors goDurationOf
    cases h : ParseDuration s <;> simp [typeAssertString, GoResult.bind, h]

/-- C4: `ValidDuration` returns at most one error per call: a failed parse
leaves the duration at the zero value, which is not negative, so the parse
error and the negativity error never coexist. -/
theorem c4_claim (v : GoValue) (k : String) (r : WsErrs)
    (h : ValidDuration v k = .ok r) : r.2.length ≤ 1 := by
  cases v with
  | str s =>
    have hd := (c3_claim k s).2.2.2
    rw [hd] at h
    cases h
    unfold durationParseErrors durationNegativityErrors goDurationOf
    cases hp : ParseDuration s
    · simp [hp]
    · simp only [hp]
      split <;> simp
  | float x => exact absurd h (by simp [ValidDuration, typeAssertString, GoResult.bind])
  | int n => exact absurd h (by simp [ValidDuration, typeAssertString, GoResult.bind])
  | boolean b => exact absurd h (by simp [ValidDuration, typeAssertString, GoResult.bind])

/-- C4 witness: the negative duration `"-5s"` yields a single error. -/
theorem c4_witness :
    ([goQuote "k" ++ " must be greater than zero"] : List String).length ≤ 1 :=
  c4_claim (GoValue.str "-5s") "k" ([], [goQuote "k" ++ " must be greater than zero"]) (by decide)

/-- C5: `ValidateCIDRBlock` accepts the canonical network form
`"10.0.0.0/24"`, rejects `"10.0.0.1/24"` (host bits set) with a message
suggesting `"10.0.0.0/24"`, and reports a parse error on a string that is not
a CIDR at all. -/
theorem c5_claim :
    ValidateCIDRBlock "10.0.0.0/24" = none ∧
    ValidateCIDRBlock "10.0.0.1/24" =
      some (goQuote "10.0.0.1/24" ++ " is not a valid CIDR block; did you mean " ++ goQuote "10.0.0.0/24" ++ "?") ∧
    ValidateCIDRBlock "10.0.0.256/24" =
      some (goQuote "10.0.0.256/24" ++ " is not a valid CIDR block: invalid CIDR address: 10.0.0.256/24") := by
  decide

/-- C6: whenever a CIDR string parses, `ValidateIPv4CIDRBlock` rejects it if
the parsed address has no 4-byte form, and `ValidateIPv6CIDRBlock` rejects it
if the address does reduce to a 4-byte form — in both cases regardless of the
canonical-network-alignment check. -/
theorem c6_claim (cidr : String) (ip : List Nat) (ipnet : List Nat × List Nat)
    (hp : ParseCIDR cidr = some (ip, ipnet)) :
    (ipTo4 ip = none → (ValidateIPv4CIDRBlock cidr).isSome = true) ∧
    (ipTo4 ip ≠ none → (ValidateIPv6CIDRBlock cidr).isSome = true) := by
  constructor
  · intro h4
    simp [ValidateIPv4CIDRBlock, hp, h4]
  · intro h4
    cases h : ipTo4 ip with
    | none => exact absurd h h4
    | some ip4 => simp [ValidateIPv6CIDRBlock, hp, h]

/-- C6 witness: the IPv4 validator rejects the IPv6 CIDR `2001:db8::/32` and
the IPv6 validator rejects the IPv4 CIDR `10.0.0.0/24`. -/
theorem c6_witness :
    (ValidateIPv4CIDRBlock "2001:db8::/32").isSome = true ∧
    (ValidateIPv6CIDRBlock "10.0.0.0/24").isSome = true :=
  ⟨(c6_claim "2001:db8::/32" [0x20, 0x01, 0x0d, 0xb8, 0, 0, 0, 0, 0, 0, 0, 0, 0, 0, 0, 0]
      ([0x20, 0x01, 0x0d, 0xb8, 0, 0, 0, 0, 0, 0, 0, 0, 0, 0, 0, 0], CIDRMask 32 128)
      (by decide)).1 (by decide),
   (c6_claim "10.0.0.0/24" [0, 0, 0, 0, 0, 0, 0, 0, 0, 0, 255, 255, 10, 0, 0, 0]
      ([10, 0, 0, 0], [255, 255, 255, 0]) (by decide)).2 (by decide)⟩

/-- C9: the validator returned by `ValidARNCheck` returns no warnings and no
errors on the empty string, and on every non-empty string that fails to parse
as an ARN it returns exactly one error, running neither the subfield checks
nor any supplied secondary check function (the result does not depend on the
supplied checks). -/
theorem c9_claim (checks : List ARNCheckFunc) (k value e : String)
    (hne : value ≠ "") (hparse : arnParse value = .error e) :
    ValidARNCheck checks (GoValue.str "") k = .ok ([], []) ∧
    ValidARNCheck checks (GoValue.str value) k =
      .ok ([], [goQuote k ++ " (" ++ value ++ ") is an invalid ARN: " ++ e]) := by
  constructor
  · rfl
  · have hbeq : (value == "") = false := by simp [hne]
    simp [ValidARNCheck, hbeq, hparse]

/-- C9 witness: a secondary check that would add a warning and two errors is
not run on the empty string nor on an unparseable ARN. -/
theorem c9_witness :
    ValidARNCheck [fun _ _ _ => (["w"], ["e1", "e2"])] (GoValue.str "") "k" = .ok ([], []) ∧
    ValidARNCheck [fun _ _ _ => (["w"], ["e1", "e2"])] (GoValue.str "not-an-arn") "k" =
      .ok ([], [goQuote "k" ++ " (not-an-arn) is an invalid ARN: arn: invalid prefix"]) :=
  c9_claim [fun _ _ _ => (["w"], ["e1", "e2"])] "k" "not-an-arn" "arn: invalid prefix"
    (by decide) (by decide)

/-- C1 counterexample: `Valid4ByteASN`, a validator of the legacy calling
convention, does not return a descriptive error on a non-string value — its
unchecked type assertion panics. -/
theorem c1_counterexample :
    Valid4ByteASN (GoValue.int 3) "k" =
      GoResult.panics "interface conversion: interface is not string" := by
  decide

/-- C1 amended: of the listed validators only `ValidARNCheck`,
`ValidTypeStringNullableFloat` and `FloatGreaterThan` use a checked type
assertion and return a single descriptive error on a value of the wrong
dynamic type; the other fifteen use an unchecked assertion and panic. -/
theorem c1_claim (v w : GoValue) (k : String)
    (hv : ∀ s, v ≠ GoValue.str s) (hw : ∀ x, w ≠ GoValue.float x)
    (nj pf pr : String → Option String) (t : Rat) :
    Valid4ByteASN v k = .panics "interface conversion: interface is not string" ∧
    ValidAccountID v k = .panics "interface conversion: interface is not string" ∧
    ValidKMSKeyID v k = .panics "interface conversion: interface is not string" ∧
    ValidLaunchTemplateID v k = .panics "interface conversion: interface is not string" ∧
    ValidLaunchTemplateName v k = .panics "interface conversion: interface is not string" ∧
    ValidMulticastIPAddress v k = .panics "interface conversion: interface is not string" ∧
    ValidOnceADayWindowFormat v k = .panics "interface conversion: interface is not string" ∧
    ValidOnceAWeekWindowFormat v k = .panics "interface conversion: interface is not string" ∧
    ValidRegionName v k = .panics "interface conversion: interface is not string" ∧
    ValidUTCTimestamp pr v k = .panics "interface conversion: interface is not string" ∧
    ValidDuration v k = .panics "interface conversion: interface is not string" ∧
    ValidCIDRNetworkAddress v k = .panics "interface conversion: interface is not string" ∧
    ValidIPv4CIDRNetworkAddress v k = .panics "interface conversion: interface is not string" ∧
    ValidIPv6CIDRNetworkAddress v k = .panics "interface conversion: interface is not string" ∧
    ValidIAMPolicyJSON nj v k = .panics "interface conversion: interface is not string" ∧
    ValidARNCheck [] v k = .ok ([], ["expected type of " ++ k ++ " to be string"]) ∧
    ValidTypeStringNullableFloat pf v k = .ok ([], ["expected type of " ++ k ++ " to be string"]) ∧
    FloatGreaterThan t w k = .ok ([], ["expected type of " ++ k ++ " to be float"]) := by
  refine ⟨bindAssert_nonstr v _ hv, bindAssert_nonstr v _ hv, bindAssert_nonstr v _ hv,
    bindAssert_nonstr v _ hv, bindAssert_nonstr v _ hv, bindAssert_nonstr v _ hv,
    bindAssert_nonstr v _ hv, bindAssert_nonstr v _ hv, bindAssert_nonstr v _ hv,
    bindAssert_nonstr v _ hv, bindAssert_nonstr v _ hv, bindAssert_nonstr v _ hv,
    bindAssert_nonstr v _ hv, bindAssert_nonstr v _ hv, bindAssert_nonstr v _ hv,
    ?_, ?_, ?_⟩
  · cases v
    case str s => exact absurd rfl (hv s)
    all_goals rfl
  · cases v
    case str s => exact absurd rfl (hv s)
    all_goals rfl
  · cases w
    case float x => exact absurd rfl (hw x)
    all_goals rfl

/-- C1 witness: a concrete integer value makes `Valid4ByteASN` panic while
`ValidTypeStringNullableFloat` returns the descriptive error. -/
theorem c1_witness :
    Valid4ByteASN (GoValue.int 7) "k" = .panics "interface conversion: interface is not string" ∧
    ValidTypeStringNullableFloat (fun _ => none) (GoValue.int 7) "k" =
      .ok ([], ["expected type of " ++ "k" ++ " to be string"]) := by
  have h := c1_claim (GoValue.int 7) (GoValue.str "x") "k"
    (fun s hh => by cases hh) (fun x hh => by cases hh)
    (fun _ => none) (fun _ => none) (fun _ => none) 1
  exact ⟨h.1, h.2.2.2.2.2.2.2.2.2.2.2.2.2.2.2.2.1⟩

theorem validAllDiagFoldl (vs : List SchemaValidateDiagFunc) (i : GoValue) (p : CtyPath)
    (acc : List Diagnostic) :
    vs.foldl (fun results validator => results ++ validator i p) acc
      = acc ++ (vs.map fun g => g i p).flatten := by
  induction vs generalizing acc with
  | nil => simp
  | cons f rest ih => simp [ih, List.append_assoc]

theorem validAnyDiagLoopAllFail (vs : List SchemaValidateDiagFunc) (i : GoValue) (p : CtyPath)
    (acc : List Diagnostic) (h : ∀ g ∈ vs, g i p ≠ []) :
    validAnyDiagLoop vs i p acc = acc ++ (vs.map fun g => g i p).flatten := by
  induction vs generalizing acc with
  | nil => simp [validAnyDiagLoop]
  | cons f rest ih =>
    have hf : f i p ≠ [] := h f (by simp)
    have hlen : (f i p).length ≠ 0 := by
      intro h0
      exact hf (List.length_eq_zero.mp h0)
    simp only [validAnyDiagLoop]
    rw [if_neg (by simpa using hlen)]
    rw [ih _ (fun g hg => h g (by simp [hg]))]
    simp [List.append_assoc]

theorem validAnyDiagLoopFirstSuccess (pre : List SchemaValidateDiagFunc)
    (f : SchemaValidateDiagFunc) (rest : List SchemaValidateDiagFunc)
    (i : GoValue) (p : CtyPath) (acc : List Diagnostic)
    (h : ∀ g ∈ pre, g i p ≠ []) (hf : f i p = []) :
    validAnyDiagLoop (pre ++ f :: rest) i p acc = [] := by
  induction pre generalizing acc with
  | nil =>
    simp only [List.nil_append, validAnyDiagLoop, hf]
    rfl
  | cons g gs ih =>
    have hg : g i p ≠ [] := h g (by simp)
    have hlen : (g i p).length ≠ 0 := by
      intro h0
      exact hg (List.length_eq_zero.mp h0)
    simp only [List.cons_append, validAnyDiagLoop]
    rw [if_neg (by simpa using hlen)]
    exact ih _ (fun u hu => h u (by simp [hu]))

/-- C7: the composite of `ValidAnyDiag` returns empty diagnostics as soon as
one validator returns zero diagnostics, discarding everything collected from
the earlier failing validators; when every validator produces at least one
diagnostic the composite returns all their diagnostics concatenated in
order. -/
theorem c7_claim :
    (∀ (pre : List SchemaValidateDiagFunc) (f : SchemaValidateDiagFunc)
       (rest : List SchemaValidateDiagFunc) (i : GoValue) (p : CtyPath),
       (∀ g ∈ pre, g i p ≠ []) → f i p = [] →
         ValidAnyDiag (pre ++ f :: rest) i p = []) ∧
    (∀ (vs : List SchemaValidateDiagFunc) (i : GoValue) (p : CtyPath),
       (∀ g ∈ vs, g i p ≠ []) →
         ValidAnyDiag vs i p = (vs.map fun g => g i p).flatten) := by
  constructor
  · intro pre f rest i p h hf
    exact validAnyDiagLoopFirstSuccess pre f rest i p [] h hf
  · intro vs i p h
    simpa using validAnyDiagLoopAllFail vs i p [] h

/-- C7 witness: a failing then a succeeding validator yield success with the
earlier diagnostic discarded; two failing validators yield both
diagnostics. -/
theorem c7_witness :
    ValidAnyDiag [fun _ _ => ["d1"], fun _ _ => []] (GoValue.str "x") "p" = [] ∧
    ValidAnyDiag [fun _ _ => ["d1"], fun _ _ => ["d2"]] (GoValue.str "x") "p" = ["d1", "d2"] := by
  constructor
  · exact c7_claim.1 [fun _ _ => ["d1"]] (fun _ _ => []) [] (GoValue.str "x") "p"
      (by intro g hg; rw [List.mem_singleton.mp hg]; simp) rfl
  · rw [c7_claim.2 [fun _ _ => ["d1"], fun _ _ => ["d2"]] (GoValue.str "x") "p"
      (by intro g hg; rcases List.mem_cons.mp hg with h | h
          · rw [h]; simp
          · rw [List.mem_singleton.mp h]; simp)]
    rfl

/-- C8: the composite of `ValidAllDiag` runs every validator on the same
input and returns the concatenation of all their diagnostics in order with no
short-circuit; with two validators of which exactly one produces one
diagnostic, exactly one diagnostic results, in either order. -/
theorem c8_claim :
    (∀ (vs : List SchemaValidateDiagFunc) (i : GoValue) (p : CtyPath),
       ValidAllDiag vs i p = (vs.map fun g => g i p).flatten) ∧
    (∀ (f g : SchemaValidateDiagFunc) (i : GoValue) (p : CtyPath) (d : Diagnostic),
       f i p = [d] → g i p = [] →
         ValidAllDiag [f, g] i p = [d] ∧ ValidAllDiag [g, f] i p = [d]) := by
  have hall : ∀ (vs : List SchemaValidateDiagFunc) (i : GoValue) (p : CtyPath),
      ValidAllDiag vs i p = (vs.map fun g => g i p).flatten := by
    intro vs i p
    simpa using validAllDiagFoldl vs i p []
  refine ⟨hall, ?_⟩
  intro f g i p d hf hg
  constructor
  · rw [hall]; simp [hf, hg]
  · rw [hall]; simp [hf, hg]

/-- C8 witness: two concrete validators, one failing with one diagnostic and
one succeeding, produce exactly one diagnostic in either order. -/
theorem c8_witness :
    ValidAllDiag [fun _ _ => ["d1"], fun _ _ => []] (GoValue.str "x") "p" = ["d1"] ∧
    ValidAllDiag [fun _ _ => [], fun _ _ => ["d1"]] (GoValue.str "x") "p" = ["d1"] :=
  c8_claim.2 (fun _ _ => ["d1"]) (fun _ _ => []) (GoValue.str "x") "p" "d1" rfl rfl

theorem warningsOf_bindAssert (v : GoValue) (F : String → GoResult WsErrs)
    (h : ∀ s, warningsOf (F s) = []) :
    warningsOf ((typeAssertString v).bind F) = [] := by
  cases v
  case str s => exact h s
  all_goals rfl

theorem sdkAnyGo_warnings (vs : List SchemaValidateFunc) (i : GoValue) (k : String)
    (ae : List String) (h : ∀ f ∈ vs, warningsOf (f i k) = []) :
    warningsOf (sdkAnyGo vs i k [] ae) = [] := by
  induction vs generalizing ae with
  | nil => rfl
  | cons f rest ih =>
    have hf0 := h f (by simp)
    simp only [sdkAnyGo]
    cases hf : f i k with
    | panics m => simp [hf, GoResult.bind, warningsOf]
    | ok we =>
      obtain ⟨w1, e1⟩ := we
      rw [hf] at hf0
      have hw : w1 = [] := hf0
      simp only [hf, GoResult.bind]
      split
      · rfl
      · rw [hw]
        simpa using ih (ae ++ e1) (fun g hg => h g (by simp [hg]))

/-- C10: every legacy-convention validator of this development returns an
empty warnings list on every input whenever it returns at all; in
`ValidARNCheck` warnings can only come from the supplied secondary check
functions, so `ValidARN` (no secondary checks) also always returns empty
warnings. -/
theorem c10_claim (v : GoValue) (k : String) (t : Rat)
    (nj pf pr cy : String → Option String) (lj : String → Bool) :
    warningsOf (Valid4ByteASN v k) = [] ∧
    warningsOf (ValidAccountID v k) = [] ∧
    warningsOf (ValidKMSKeyID v k) = [] ∧
    warningsOf (ValidLaunchTemplateID v k) = [] ∧
    warningsOf (ValidLaunchTemplateName v k) = [] ∧
    warningsOf (ValidMulticastIPAddress v k) = [] ∧
    warningsOf (ValidOnceADayWindowFormat v k) = [] ∧
    warningsOf (ValidOnceAWeekWindowFormat v k) = [] ∧
    warningsOf (ValidRegionName v k) = [] ∧
    warningsOf (ValidUTCTimestamp pr v k) = [] ∧
    warningsOf (ValidDuration v k) = [] ∧
    warningsOf (ValidCIDRNetworkAddress v k) = [] ∧
    warningsOf (ValidIPv4CIDRNetworkAddress v k) = [] ∧
    warningsOf (ValidIPv6CIDRNetworkAddress v k) = [] ∧
    warningsOf (ValidIAMPolicyJSON nj v k) = [] ∧
    warningsOf (ValidStringIsJSONOrYAML lj nj cy v k) = [] ∧
    warningsOf (ValidTypeStringNullableFloat pf v k) = [] ∧
    warningsOf (FloatGreaterThan t v k) = [] ∧
    warningsOf (ValidStringDateOrPositiveInt pr v k) = [] ∧
    warningsOf (ValidARN v k) = [] := by
  refine ⟨?_, ?_, ?_, ?_, ?_, ?_, ?_, ?_, ?_, ?_, ?_, ?_, ?_, ?_, ?_, ?_, ?_, ?_, ?_, ?_⟩
  · exact warningsOf_bindAssert v _ fun s => by (repeat' split) <;> rfl
  · exact warningsOf_bindAssert v _ fun s => by (repeat' split) <;> rfl
  · exact warningsOf_bindAssert v _ fun s => by (repeat' split) <;> rfl
  · exact warningsOf_bindAssert v _ fun s => by (repeat' split) <;> rfl
  · exact warningsOf_bindAssert v _ fun s => by (repeat' split) <;> rfl
  · exact warningsOf_bindAssert v _ fun s => by (repeat' split) <;> rfl
  · exact warningsOf_bindAssert v _ fun s => by (repeat' split) <;> rfl
  · exact warningsOf_bindAssert v _ fun s => by (repeat' split) <;> rfl
  · exact warningsOf_bindAssert v _ fun s => by (repeat' split) <;> rfl
  · exact warningsOf_bindAssert v _ fun s => by (repeat' split) <;> rfl
  · exact warningsOf_bindAssert v _ fun s => by (repeat' split) <;> rfl
  · exact warningsOf_bindAssert v _ fun s => by (repeat' split) <;> rfl
  · exact warningsOf_bindAssert v _ fun s => by (repeat' split) <;> rfl
  · exact warningsOf_bindAssert v _ fun s => by (repeat' split) <;> rfl
  · exact warningsOf_bindAssert v _ fun s => by (repeat' split) <;> rfl
  · exact warningsOf_bindAssert v _ fun s => by (repeat' split) <;> rfl
  · unfold ValidTypeStringNullableFloat
    cases v <;> first | rfl | ((repeat' split) <;> rfl)
  · unfold FloatGreaterThan
    cases v <;> first | rfl | ((repeat' split) <;> rfl)
  · show warningsOf (sdkAnyGo
      [sdkIsRFC3339Time pr, sdkStringMatchDigits "must be a positive integer value"] v k [] []) = []
    apply sdkAnyGo_warnings
    intro f hf
    rcases List.mem_cons.mp hf with h | h
    · rw [h]; unfold sdkIsRFC3339Time; cases v <;> first | rfl | ((repeat' split) <;> rfl)
    · rw [List.mem_singleton.mp h]
      unfold sdkStringMatchDigits; cases v <;> first | rfl | ((repeat' split) <;> rfl)
  · unfold ValidARN ValidARNCheck
    cases v <;> first | rfl | ((repeat' split) <;> rfl)
